import Mathlib

/-!
Verification of the Component Readiness Regression Engine (sippy).

This file gives a shallow embedding of the data model and the statistical
kernel of the component readiness subsystem, and proves or refutes the
frozen claims about it.

Sources of the embedding:
* `pkg/apis/api/componentreport/types.go` is in the repository: the
  definitions `TestCount`, `TestDetailsTestStats`, `CalculatePassRate`,
  `NewTestStats`, `TestWithVariantsKey.KeyOrDie` below are translated from
  it directly.  Go `int` fields are modelled as `Int` (no claim here
  involves 64-bit overflow) and Go `float64` results as `Rat`, since every
  claim about rates is either an identity between two computations of the
  same expression or a comparison far away from any floating point tie.
* The statistical kernel (`assessComponentStatus`), the report aggregator
  and the prow job name normalizer are not part of the provided sources;
  only their unit tests are.  They are modelled from the specification,
  except where the unit test tables in
  `pkg/api/componentreadiness/component_report_test.go` pin a behaviour
  that contradicts the specification text; each such deviation is recorded
  in the corresponding doc comment and the test table itself is embedded
  (`assessTestTable`) so that the model is provably consistent with it.
-/

namespace Sippy

/-! ### Status codes (types.go, Status constants) -/

/-- `Status` is a signed ordinal; negative = regression, positive =
improvement, magnitude = severity (types.go). -/
abbrev Status : Type := Int

def FailedFixedRegression : Status := -1000
def ExtremeRegression : Status := -500
def SignificantRegression : Status := -400
def ExtremeTriagedRegression : Status := -300
def SignificantTriagedRegression : Status := -200
def FixedRegression : Status := -150
def MissingSample : Status := -100
def NotSignificant : Status := 0
def MissingBasis : Status := 100
def MissingBasisAndSample : Status := 200
def SignificantImprovement : Status := 300

/-! ### TestCount (types.go) -/

/-- `TestCount` carries raw BigQuery counts (types.go).  Go `int` fields are
modelled as `Int`. -/
structure TestCount where
  TotalCount : Int
  SuccessCount : Int
  FlakeCount : Int
  deriving DecidableEq, Repr

/-- `TestCount.Add` sums the three count fields componentwise (types.go). -/
def TestCount.Add (tc add : TestCount) : TestCount :=
  { TotalCount := tc.TotalCount + add.TotalCount
    SuccessCount := tc.SuccessCount + add.SuccessCount
    FlakeCount := tc.FlakeCount + add.FlakeCount }

/-- `TestCount.Failures` derives the failure count, clamping a negative
difference to zero (types.go: `if failure < 0 { failure = 0 }`). -/
def TestCount.Failures (tc : TestCount) : Int :=
  let failure := tc.TotalCount - tc.SuccessCount - tc.FlakeCount
  if failure < 0 then 0 else failure

/-! ### TestDetailsTestStats (types.go) -/

/-- `CalculatePassRate` (types.go): `0` for an empty total, `success/total`
when flakes count as failures, `(success+flake)/total` otherwise. -/
def CalculatePassRate (success failure flake : Int) (treatFlakeAsFailure : Bool) : ℚ :=
  let total := success + failure + flake
  if total = 0 then 0
  else if treatFlakeAsFailure then (success : ℚ) / (total : ℚ)
  else ((success + flake : Int) : ℚ) / (total : ℚ)

/-- `TestDetailsTestStats` (types.go): counts plus a stored success rate. -/
structure TestDetailsTestStats where
  SuccessCount : Int
  FailureCount : Int
  FlakeCount : Int
  SuccessRate : ℚ
  deriving DecidableEq, Repr

/-- `NewTestStats` (types.go): the only constructor that computes the stored
`SuccessRate`, always via `CalculatePassRate` over its own counts. -/
def NewTestStats (successCount failureCount flakeCount : Int) (flakesAsFailure : Bool) :
    TestDetailsTestStats :=
  { SuccessCount := successCount
    FailureCount := failureCount
    FlakeCount := flakeCount
    SuccessRate := CalculatePassRate successCount failureCount flakeCount flakesAsFailure }

/-- `TestDetailsTestStats.Total` (types.go). -/
def TestDetailsTestStats.Total (t : TestDetailsTestStats) : Int :=
  t.SuccessCount + t.FailureCount + t.FlakeCount

/-- `TestDetailsTestStats.Passes` (types.go). -/
def TestDetailsTestStats.Passes (t : TestDetailsTestStats) (flakesAsFailure : Bool) : Int :=
  if flakesAsFailure then t.SuccessCount else t.SuccessCount + t.FlakeCount

/-- `TestDetailsTestStats.PassRate` (types.go). -/
def TestDetailsTestStats.PassRate (t : TestDetailsTestStats) (flakesAsFailure : Bool) : ℚ :=
  CalculatePassRate t.SuccessCount t.FailureCount t.FlakeCount flakesAsFailure

/-- `TestDetailsTestStats.Add` (types.go): componentwise sum rebuilt through
`NewTestStats`. -/
def TestDetailsTestStats.Add (t add : TestDetailsTestStats) (flakesAsFailure : Bool) :
    TestDetailsTestStats :=
  NewTestStats (t.SuccessCount + add.SuccessCount) (t.FailureCount + add.FailureCount)
    (t.FlakeCount + add.FlakeCount) flakesAsFailure

/-- `TestDetailsTestStats.AddTestCount` (types.go): adds a raw `TestCount`,
deriving its failures, rebuilt through `NewTestStats`. -/
def TestDetailsTestStats.AddTestCount (t : TestDetailsTestStats) (add : TestCount)
    (flakesAsFailure : Bool) : TestDetailsTestStats :=
  NewTestStats (t.SuccessCount + add.SuccessCount) (t.FailureCount + add.Failures)
    (t.FlakeCount + add.FlakeCount) flakesAsFailure

/-- `TestCount.ToTestStats` (types.go). -/
def TestCount.ToTestStats (tc : TestCount) (flakeAsFailure : Bool) : TestDetailsTestStats :=
  NewTestStats tc.SuccessCount tc.Failures tc.FlakeCount flakeAsFailure

/-- `TestDetailsTestStats.FailPassWithFlakes` (types.go). -/
def TestDetailsTestStats.FailPassWithFlakes (t : TestDetailsTestStats) (flakesAsFailure : Bool) :
    Int × Int :=
  if flakesAsFailure then (t.FailureCount + t.FlakeCount, t.SuccessCount)
  else (t.FailureCount, t.SuccessCount + t.FlakeCount)

/-- The rate/count coherence invariant of claim C10. -/
def RateCoherent (t : TestDetailsTestStats) (flakesAsFailure : Bool) : Prop :=
  t.SuccessRate = CalculatePassRate t.SuccessCount t.FailureCount t.FlakeCount flakesAsFailure

end Sippy

open Sippy

/-- Claim C6: for every `TestCount`, also when the total is zero or when
success plus flake exceeds the total, `Failures` is total evaluation (the Go
body performs no partial operation) and returns
`max 0 (TotalCount - SuccessCount - FlakeCount)`, hence is never negative. -/
theorem testCount_failures_clamped (tc : TestCount) :
    tc.Failures = max 0 (tc.TotalCount - tc.SuccessCount - tc.FlakeCount) ∧ 0 ≤ tc.Failures := by
  constructor
  · simp only [TestCount.Failures]
    split
    · omega
    · omega
  · simp only [TestCount.Failures]
    split
    · omega
    · omega

/-- Claim C8: merging producer outputs for a test key via `TestCount.Add` is
commutative and associative. -/
theorem testCount_add_comm_assoc (a b c : TestCount) :
    a.Add b = b.Add a ∧ (a.Add b).Add c = a.Add (b.Add c) := by
  refine ⟨?_, ?_⟩ <;> simp only [TestCount.Add] <;> congr 1 <;> ring

/-- Claim C10: every `TestDetailsTestStats` built by `NewTestStats`,
`Add`, `AddTestCount` or `TestCount.ToTestStats` stores a `SuccessRate` equal
to `CalculatePassRate` of its own stored counts for the flake policy it was
built with, so stored rates never disagree with stored counts. -/
theorem testStats_rate_coherent (s f fl : Int) (t u : TestDetailsTestStats) (tc add : TestCount)
    (b : Bool) :
    RateCoherent (NewTestStats s f fl b) b ∧
    RateCoherent (t.Add u b) b ∧
    RateCoherent (t.AddTestCount add b) b ∧
    RateCoherent (tc.ToTestStats b) b := by
  refine ⟨rfl, rfl, rfl, rfl⟩

namespace Sippy

/-! ### The statistical kernel

`assessComponentStatus` is not part of the provided sources; only its unit
test `Test_componentReportGenerator_assessComponentStatus` is.  The model
below follows the decision tree of the specification, deviating exactly
where the embedded test table (`assessTestTable` below) contradicts it:

* a new test whose pass-rate assessment finds no regression yields
  `MissingBasis`, not `NotSignificant` (test row "new test no regression");
* the minimum-sample threshold of the pass-rate assessment is the constant
  7, not `ceil(100/requiredPassRate)` (rows "pass rate mode insufficient /
  barely sufficient runs to trigger": total 6 is insufficient, 7 is
  sufficient, at required rate 95 where the ceiling formula would give 2);
* the extreme-regression threshold is `required - (100 - required)` in
  percent, twice the allowed failure margin below the required rate, not
  `required - 15` (rows "pass rate mode extreme regression": 89 percent is
  extreme at required 95, and "barely sufficient": 6/7 is extreme);
* when the base is present and `requiredPassRateForAllTests = 0` but
  `requiredPassRateForNewTests > 0` is irrelevant, Fisher mode runs; the
  exposed probability is the one-sided lower hypergeometric tail
  (probability of at most the observed sample passes), not a two-sided
  test: rows "regular regression" (expected 0.2414 = the one-sided value;
  two-sided would be 0.4828) and "zero success" (6.4467e-9) pin this.

Ties under exact rational arithmetic that Go float64 arithmetic could
resolve differently (for example a pity factor exactly absorbing the rate
drop) occur in no claim and in no embedded test row. -/

/-- `crtest.Stats`: the counts of a release window as used by the kernel
(the test file constructs it with `FailureCount = total - success - flake`). -/
structure Stats where
  SuccessCount : Int
  FailureCount : Int
  FlakeCount : Int
  deriving DecidableEq, Repr

/-- Total runs of a `Stats`. -/
def Stats.Total (s : Stats) : Int := s.SuccessCount + s.FailureCount + s.FlakeCount

/-- Pass rate of a `Stats` (the shared `CalculatePassRate`). -/
def Stats.PassRate (s : Stats) (flakesAsFailure : Bool) : ℚ :=
  CalculatePassRate s.SuccessCount s.FailureCount s.FlakeCount flakesAsFailure

/-- Passes under the flake policy. -/
def Stats.Passes (s : Stats) (flakesAsFailure : Bool) : Int :=
  if flakesAsFailure then s.SuccessCount else s.SuccessCount + s.FlakeCount

/-- Failures under the flake policy. -/
def Stats.Fails (s : Stats) (flakesAsFailure : Bool) : Int :=
  if flakesAsFailure then s.FailureCount + s.FlakeCount else s.FailureCount

/-- `RequestAdvancedOptions` (types.go): the advanced options the kernel
reads.  Go `int` fields modelled as `Int`. -/
structure Advanced where
  Confidence : Int := 0
  PityFactor : Int := 0
  MinimumFailure : Int := 0
  PassRateRequiredNewTests : Int := 0
  PassRateRequiredAllTests : Int := 0
  FlakeAsFailure : Bool := false
  deriving DecidableEq, Repr

/-- The comparison mode recorded on a verdict. -/
inductive ComparisonMode where
  | fisherExact
  | passRate
  deriving DecidableEq, Repr

/-- The kernel's outcome: status code, comparison mode, the exposed Fisher
probability when one was computed, and the human-readable explanations. -/
structure Verdict where
  status : Status
  comparison : ComparisonMode
  fisherExact : Option ℚ
  explanations : List String
  deriving DecidableEq, Repr

/-- Binomial coefficient through falling factorials on the smaller side
(evaluation-friendly; `binom_eq_choose` below proves it is `Nat.choose`). -/
def binom (n k : ℕ) : ℕ :=
  if k ≤ n then (n.descFactorial (min k (n - k))) / (Nat.factorial (min k (n - k))) else 0

/-- `binom` is the binomial coefficient. -/
theorem binom_eq_choose (n k : ℕ) : binom n k = Nat.choose n k := by
  simp only [binom]
  split
  · rcases min_cases k (n - k) with ⟨hm, _⟩ | ⟨hm, hk⟩
    · rw [hm, ← Nat.choose_eq_descFactorial_div_factorial]
    · rw [hm, ← Nat.choose_eq_descFactorial_div_factorial]
      rw [Nat.choose_symm (by omega)]
  · rw [Nat.choose_eq_zero_of_lt (by omega)]

/-- Numerator of the lower hypergeometric tail: number of tables (weighted
by multiplicity) with at most `a` passes in the sample row, margins
`r1`/`r2` and `colPass` total passes. -/
def fisherLowerTailNum (r1 r2 colPass a : ℕ) : ℕ :=
  (List.range (a + 1)).foldl (fun acc k => acc + binom r1 k * binom r2 (colPass - k)) 0

/-- One-sided Fisher probability of observing at most `samplePass` passes in
the sample row of the 2x2 table, the tail the kernel exposes for a
regression (pinned by the embedded test table). -/
def fisherLowerTail (samplePass sampleFail basePass baseFail : ℕ) : ℚ :=
  let r1 := samplePass + sampleFail
  let r2 := basePass + baseFail
  let cp := samplePass + basePass
  (fisherLowerTailNum r1 r2 cp samplePass : ℚ) / (binom (r1 + r2) cp : ℚ)

/-- One-sided Fisher probability of observing at least `samplePass` passes
(the improvement direction). -/
def fisherUpperTail (samplePass sampleFail basePass baseFail : ℕ) : ℚ :=
  let r1 := samplePass + sampleFail
  let r2 := basePass + baseFail
  let cp := samplePass + basePass
  let num := (List.range (r1 + 1 - samplePass)).foldl
    (fun acc i => acc + binom r1 (samplePass + i) * binom r2 (cp - (samplePass + i))) 0
  (num : ℚ) / (binom (r1 + r2) cp : ℚ)

/-- Two-decimal percent formatting for the explanation strings, as Go
`%.2f` renders the values there (no explanation value in any claim sits on
a rounding tie). -/
def fmtPct (q : ℚ) : String :=
  let cents : Int := Int.floor (q * 100 + 1 / 2)
  let n := cents.toNat
  Nat.repr (n / 100) ++ "." ++
    (if n % 100 < 10 then "0" ++ Nat.repr (n % 100) else Nat.repr (n % 100))

/-- Explanation lines of a Fisher-mode regression, in the order pinned by
the test file: severity label; probability line; rate-drop line. -/
def fisherExplanations (st : Status) (p bRate sRate : ℚ) : List String :=
  [if st = ExtremeRegression then "Extreme regression detected."
   else "Significant regression detected.",
   "Fishers Exact probability of a regression: " ++ fmtPct ((1 - p) * 100) ++ "%.",
   "Test pass rate dropped from " ++ fmtPct (bRate * 100) ++ "% to " ++ fmtPct (sRate * 100) ++ "%."]

/-- The effective required rate, in percent: the raw option minus the
middleware adjustment (specification section 4.6). -/
def requiredPct (raw : Int) (requiredPassRateAdjustment : ℚ) : ℚ :=
  (raw : ℚ) - 100 * requiredPassRateAdjustment

/-- The extreme-regression threshold of the pass-rate assessment, in
percent: twice the allowed failure margin below 100 (pinned by the test
table; the specification text says `required - 15`, which the table
refutes). -/
def severePct (required : ℚ) : ℚ := required - (100 - required)

/-- The minimum sample size of the pass-rate assessment (pinned by the
test table at required rate 95: total 6 is insufficient, 7 sufficient). -/
def minimumRunsForPassRate : Int := 7

/-- The pass-rate assessment shared by the new-test branch and pass-rate
mode: a regression verdict only when the sample is large enough, misses the
required rate, and has at least the minimum failures; severity by the
extreme threshold. -/
def buildPassRateStatus (sample : Stats) (required : ℚ) (minFail : Int)
    (flakesAsFailure : Bool) : Status :=
  let ratePct := sample.PassRate flakesAsFailure * 100
  if minimumRunsForPassRate ≤ sample.Total ∧ ratePct < required ∧
      minFail ≤ sample.FailureCount then
    if ratePct < severePct required then ExtremeRegression else SignificantRegression
  else NotSignificant

/-- The no-basis (new test) branch: a pass-rate regression is reported when
`requiredPassRateForNewTests` finds one; otherwise pass-rate mode runs when
configured; otherwise the verdict is `MissingBasis` (also for a passing new
test: test row "new test no regression"), or `MissingBasisAndSample` when
the sample is empty too. -/
def assessNoBase (sample : Stats) (cfg : Advanced) (requiredPassRateAdjustment : ℚ) : Verdict :=
  if sample.Total = 0 then ⟨MissingBasisAndSample, ComparisonMode.fisherExact, none, []⟩
  else
    let newSt :=
      if 0 < cfg.PassRateRequiredNewTests then
        buildPassRateStatus sample
          (requiredPct cfg.PassRateRequiredNewTests requiredPassRateAdjustment)
          cfg.MinimumFailure cfg.FlakeAsFailure
      else NotSignificant
    if newSt ≠ NotSignificant then ⟨newSt, ComparisonMode.passRate, none, []⟩
    else if 0 < cfg.PassRateRequiredAllTests then
      ⟨buildPassRateStatus sample
        (requiredPct cfg.PassRateRequiredAllTests requiredPassRateAdjustment)
        cfg.MinimumFailure cfg.FlakeAsFailure, ComparisonMode.passRate, none, []⟩
    else ⟨MissingBasis, ComparisonMode.fisherExact, none, []⟩

/-- Fisher mode (specification section 4.6 step 5): improvement test when
the sample rate is at least the base rate; otherwise the pity factor may
absorb the drop; otherwise the minimum-failure filter applies; otherwise
the one-sided Fisher probability decides significance and the 15-point rate
drop decides severity. -/
def fisherModeVerdict (sample b : Stats) (cfg : Advanced) (pityAdjustment : ℚ) : Verdict :=
  let faf := cfg.FlakeAsFailure
  let sRate := sample.PassRate faf
  let bRate := b.PassRate faf
  let effectiveConfidence := (cfg.Confidence : ℚ) - 100 * pityAdjustment
  let sPass := (sample.Passes faf).toNat
  let sFail := (sample.Fails faf).toNat
  let bPass := (b.Passes faf).toNat
  let bFail := (b.Fails faf).toNat
  if bRate ≤ sRate then
    let p := fisherUpperTail sPass sFail bPass bFail
    if (1 - p) * 100 < effectiveConfidence then
      ⟨NotSignificant, ComparisonMode.fisherExact, some p, []⟩
    else ⟨SignificantImprovement, ComparisonMode.fisherExact, some p, []⟩
  else if bRate ≤ sRate + (cfg.PityFactor : ℚ) / 100 + pityAdjustment then
    ⟨NotSignificant, ComparisonMode.fisherExact, none, []⟩
  else if sample.FailureCount < cfg.MinimumFailure then
    ⟨NotSignificant, ComparisonMode.fisherExact, none, []⟩
  else
    let p := fisherLowerTail sPass sFail bPass bFail
    if (1 - p) * 100 < effectiveConfidence then
      ⟨NotSignificant, ComparisonMode.fisherExact, some p, []⟩
    else
      let st := if 15 / 100 ≤ bRate - sRate then ExtremeRegression else SignificantRegression
      ⟨st, ComparisonMode.fisherExact, some p, fisherExplanations st p bRate sRate⟩

/-- The statistical kernel (specification section 4.6, decision tree): a
base with zero or missing counts routes to the new-test branch; an empty
sample to `MissingSample`; `requiredPassRateForAllTests > 0` to pass-rate
mode; otherwise Fisher mode. -/
def assessComponentStatus (sample : Stats) (base : Option Stats) (cfg : Advanced)
    (pityAdjustment requiredPassRateAdjustment : ℚ) : Verdict :=
  match base with
  | none => assessNoBase sample cfg requiredPassRateAdjustment
  | some b =>
    if b.Total ≤ 0 then assessNoBase sample cfg requiredPassRateAdjustment
    else if sample.Total = 0 then ⟨MissingSample, ComparisonMode.fisherExact, none, []⟩
    else if 0 < cfg.PassRateRequiredAllTests then
      ⟨buildPassRateStatus sample
        (requiredPct cfg.PassRateRequiredAllTests requiredPassRateAdjustment)
        cfg.MinimumFailure cfg.FlakeAsFailure, ComparisonMode.passRate, none, []⟩
    else fisherModeVerdict sample b cfg pityAdjustment

end Sippy

namespace Sippy

/-! ### The kernel unit-test table

`Test_componentReportGenerator_assessComponentStatus` from
`component_report_test.go`, transcribed row for row.  The test builds
`Stats` with `FailureCount = total - success - flake`, always passes a
non-nil base pointer, sets only the three listed advanced options, and
compares the Fisher probability after rounding to four decimals. -/

/-- One row of the kernel unit-test table. -/
structure AssessCase where
  sampleTotal : Int
  sampleSuccess : Int
  sampleFlake : Int := 0
  baseTotal : Int := 0
  baseSuccess : Int := 0
  baseFlake : Int := 0
  requiredPassRateForNewTests : Int := 0
  requiredPassRateForAllTests : Int := 0
  minFail : Int := 0
  expectedStatus : Status
  expectedFischers : Option ℚ := none
  deriving Repr

/-- The twelve rows of the kernel unit test, in file order. -/
def assessTestTable : List AssessCase :=
  [ -- "regular regression"
   { sampleTotal := 15, sampleSuccess := 13, baseTotal := 15, baseSuccess := 14, baseFlake := 1,
     expectedStatus := -400, expectedFischers := some (2413793103448262 / 10 ^ 16) },
   -- "zero success"
   { sampleTotal := 15, sampleSuccess := 0, baseTotal := 15, baseSuccess := 14, baseFlake := 1,
     expectedStatus := -500, expectedFischers := some (6446725037893782 / 10 ^ 24) },
   -- "new test no regression"
   { sampleTotal := 1000, sampleSuccess := 999, requiredPassRateForNewTests := 99,
     expectedStatus := MissingBasis },
   -- "new test extreme regression"
   { sampleTotal := 15, sampleSuccess := 13, requiredPassRateForNewTests := 99,
     expectedStatus := ExtremeRegression },
   -- "new test significant regression"
   { sampleTotal := 1000, sampleSuccess := 985, requiredPassRateForNewTests := 99,
     expectedStatus := SignificantRegression },
   -- "pass rate mode significant regression"
   { sampleTotal := 100, sampleSuccess := 94, baseTotal := 100, baseSuccess := 94,
     requiredPassRateForAllTests := 95, expectedStatus := SignificantRegression },
   -- "pass rate mode extreme regression"
   { sampleTotal := 100, sampleSuccess := 89, baseTotal := 100, baseSuccess := 89,
     requiredPassRateForAllTests := 95, expectedStatus := ExtremeRegression },
   -- "pass rate mode no regression"
   { sampleTotal := 100, sampleSuccess := 97, baseTotal := 100, baseSuccess := 97,
     requiredPassRateForAllTests := 95, expectedStatus := NotSignificant },
   -- "pass rate mode significant regression under minimum failures"
   { sampleTotal := 20, sampleSuccess := 18, baseTotal := 20, baseSuccess := 18,
     requiredPassRateForAllTests := 95, minFail := 5, expectedStatus := NotSignificant },
   -- "pass rate mode significant regression over minimum failures"
   { sampleTotal := 20, sampleSuccess := 18, baseTotal := 20, baseSuccess := 18,
     requiredPassRateForAllTests := 95, minFail := 1, expectedStatus := SignificantRegression },
   -- "pass rate mode insufficient runs to trigger"
   { sampleTotal := 6, sampleSuccess := 0, requiredPassRateForAllTests := 95,
     expectedStatus := NotSignificant },
   -- "pass rate mode barely sufficient runs to trigger"
   { sampleTotal := 7, sampleSuccess := 6, requiredPassRateForAllTests := 95,
     expectedStatus := ExtremeRegression }]

/-- Run the kernel on a table row exactly as the unit test does. -/
def runAssessCase (c : AssessCase) : Verdict :=
  assessComponentStatus
    { SuccessCount := c.sampleSuccess, FlakeCount := c.sampleFlake,
      FailureCount := c.sampleTotal - c.sampleSuccess - c.sampleFlake }
    (some { SuccessCount := c.baseSuccess, FlakeCount := c.baseFlake,
            FailureCount := c.baseTotal - c.baseSuccess - c.baseFlake })
    { PassRateRequiredNewTests := c.requiredPassRateForNewTests,
      PassRateRequiredAllTests := c.requiredPassRateForAllTests,
      MinimumFailure := c.minFail }
    0 0

/-- A row checks out when the status matches and the Fisher probability is
absent exactly when expected, and otherwise matches to the four-decimal
comparison the unit test performs. -/
def assessCaseOk (c : AssessCase) : Bool :=
  let v := runAssessCase c
  v.status = c.expectedStatus &&
    match v.fisherExact, c.expectedFischers with
    | none, none => true
    | some p, some e => |p - e| < 1 / 10 ^ 4
    | _, _ => false

attribute [local semireducible] Rat.add Rat.mul Rat.inv Rat.sub in
/-- Model validation: the kernel model reproduces every row of the embedded
unit-test table.  (The arithmetic of `Rat` is `@[irreducible]` by default;
evaluation-based proofs in this file make it semireducible locally.) -/
theorem assess_model_matches_test_table : assessTestTable.all assessCaseOk = true := by decide

end Sippy

namespace Sippy

/-- Base stats count as missing when absent or with a non-positive total
(the kernel checks `BaseStats == nil || BaseStats.Total() == 0`). -/
def baseMissing : Option Stats → Prop
  | none => True
  | some b => b.Total ≤ 0

instance baseMissing.instDecidable : (b : Option Stats) → Decidable (baseMissing b)
  | none => isTrue trivial
  | some _ => Int.decLe _ _

/-- The three-way pass-rate banding: meeting the required rate is not
significant, below the extreme threshold is extreme, between is
significant. -/
def passRateBand (sample : Stats) (required : ℚ) (flakesAsFailure : Bool) : Status :=
  let ratePct := sample.PassRate flakesAsFailure * 100
  if required ≤ ratePct then NotSignificant
  else if ratePct < severePct required then ExtremeRegression
  else SignificantRegression

/-- An evaluated pass-rate assessment (enough runs, enough failures) is the
three-way banding. -/
theorem buildPassRateStatus_eval (sample : Stats) (required : ℚ) (minFail : Int) (faf : Bool)
    (h7 : minimumRunsForPassRate ≤ sample.Total) (hmf : minFail ≤ sample.FailureCount) :
    buildPassRateStatus sample required minFail faf = passRateBand sample required faf := by
  simp only [buildPassRateStatus, passRateBand]
  rcases le_or_lt required (sample.PassRate faf * 100) with h | h
  · rw [if_neg (fun hc => absurd hc.2.1 (not_lt.mpr h)), if_pos h]
  · rw [if_pos ⟨h7, h, hmf⟩, if_neg (not_le.mpr h)]

/-- A pass-rate assessment with fewer runs than the minimum threshold is
`NotSignificant`. -/
theorem buildPassRateStatus_insufficient (sample : Stats) (required : ℚ) (minFail : Int)
    (faf : Bool) (h : sample.Total < minimumRunsForPassRate) :
    buildPassRateStatus sample required minFail faf = NotSignificant := by
  simp only [buildPassRateStatus]
  rw [if_neg]
  intro hc
  exact absurd hc.1 (not_le.mpr h)

/-- A pass-rate assessment of a sample meeting the required rate is
`NotSignificant`. -/
theorem buildPassRateStatus_pass (sample : Stats) (required : ℚ) (minFail : Int) (faf : Bool)
    (h : required ≤ sample.PassRate faf * 100) :
    buildPassRateStatus sample required minFail faf = NotSignificant := by
  simp only [buildPassRateStatus]
  rw [if_neg]
  intro hc
  exact absurd hc.2.1 (not_lt.mpr h)

/-- With missing base the kernel runs the no-basis branch. -/
theorem assess_baseMissing (sample : Stats) (base : Option Stats) (cfg : Advanced)
    (pityAdj reqAdj : ℚ) (hb : baseMissing base) :
    assessComponentStatus sample base cfg pityAdj reqAdj = assessNoBase sample cfg reqAdj := by
  cases base with
  | none => rfl
  | some b =>
    simp only [baseMissing] at hb
    simp only [assessComponentStatus, if_pos hb]

end Sippy

namespace Sippy

/-- In the no-basis branch, when the sample meets the required new-test
rate the verdict falls through to `MissingBasis`. -/
theorem assessNoBase_meets_required (sample : Stats) (cfg : Advanced) (reqAdj : ℚ)
    (hall : cfg.PassRateRequiredAllTests ≤ 0) (hs : ¬ sample.Total = 0)
    (hrate : requiredPct cfg.PassRateRequiredNewTests reqAdj ≤
      sample.PassRate cfg.FlakeAsFailure * 100) :
    (assessNoBase sample cfg reqAdj).status = MissingBasis := by
  simp only [assessNoBase, if_neg hs]
  have hnewSt :
      (if 0 < cfg.PassRateRequiredNewTests then
        buildPassRateStatus sample (requiredPct cfg.PassRateRequiredNewTests reqAdj)
          cfg.MinimumFailure cfg.FlakeAsFailure
      else NotSignificant) = NotSignificant := by
    rcases lt_or_ge 0 cfg.PassRateRequiredNewTests with h | h
    · rw [if_pos h, buildPassRateStatus_pass _ _ _ _ hrate]
    · rw [if_neg (not_lt.mpr h)]
  rw [hnewSt]
  simp only [ne_eq, not_true_eq_false, if_false, if_neg (not_lt.mpr hall), ite_false]

end Sippy

open Sippy in
attribute [local semireducible] Rat.add Rat.mul Rat.inv Rat.sub in
/-- Counterexample to claim C1: at the inputs of test row "new test no
regression" (sample 1000/999/0, base counts all zero,
requiredPassRateForNewTests 99) every hypothesis of the claim holds — the
base is missing, the required rate is positive, the sample total meets the
minimum-sample threshold, and the sample pass rate 99.9 percent is at least
the required 99 percent — yet the kernel returns `MissingBasis`, not
`NotSignificant`. -/
theorem assess_newTest_passing_C1_counterexample :
    baseMissing (some ⟨0, 0, 0⟩) ∧
    (0 : Int) < 99 ∧
    minimumRunsForPassRate ≤ (Stats.Total ⟨999, 1, 0⟩) ∧
    requiredPct 99 0 ≤ Stats.PassRate ⟨999, 1, 0⟩ false * 100 ∧
    (assessComponentStatus ⟨999, 1, 0⟩ (some ⟨0, 0, 0⟩)
      { PassRateRequiredNewTests := 99 } 0 0).status = MissingBasis ∧
    MissingBasis ≠ NotSignificant := by
  refine ⟨by decide, by decide, by decide, by decide, by decide, by decide⟩

open Sippy in
/-- Claim C1 amended: in the new-test branch (base counts missing or zero,
`requiredPassRateForNewTests > 0`, pass-rate-for-all-tests mode off), a
non-empty sample whose pass rate is at least the required rate
(`requiredPassRateForNewTests - 100 * requiredPassRateAdjustment` percent)
receives `MissingBasis`, not `NotSignificant`: a passing new test reports
that it has no basis. -/
theorem assess_newTest_passing_missingBasis
    (sample : Stats) (base : Option Stats) (cfg : Advanced) (pityAdj reqAdj : ℚ)
    (hb : baseMissing base) (hall : cfg.PassRateRequiredAllTests ≤ 0)
    (hs : ¬ sample.Total = 0)
    (hrate : requiredPct cfg.PassRateRequiredNewTests reqAdj ≤
      sample.PassRate cfg.FlakeAsFailure * 100) :
    (assessComponentStatus sample base cfg pityAdj reqAdj).status = MissingBasis := by
  rw [assess_baseMissing _ _ _ _ _ hb]
  exact assessNoBase_meets_required _ _ _ hall hs hrate

open Sippy in
attribute [local semireducible] Rat.add Rat.mul Rat.inv Rat.sub in
/-- Witness for the amended claim C1 at the inputs of test row "new test no
regression". -/
theorem assess_newTest_passing_missingBasis_witness :
    (baseMissing (none : Option Stats) ∧
      ({ PassRateRequiredNewTests := 99 } : Advanced).PassRateRequiredAllTests ≤ 0 ∧
      ¬ (Stats.Total ⟨999, 1, 0⟩) = 0 ∧
      requiredPct 99 0 ≤ Stats.PassRate ⟨999, 1, 0⟩ false * 100) ∧
    (assessComponentStatus ⟨999, 1, 0⟩ none { PassRateRequiredNewTests := 99 } 0 0).status =
      MissingBasis :=
  ⟨⟨trivial, by decide, by decide, by decide⟩,
    assess_newTest_passing_missingBasis ⟨999, 1, 0⟩ none { PassRateRequiredNewTests := 99 } 0 0
      trivial (by decide) (by decide) (by decide)⟩

namespace Sippy

/-- With a present base, a non-empty sample, and
`requiredPassRateForAllTests > 0`, the kernel is the pass-rate assessment. -/
theorem assess_passRateMode (sample b : Stats) (cfg : Advanced) (pityAdj reqAdj : ℚ)
    (hb : 0 < b.Total) (hs : ¬ sample.Total = 0)
    (hall : 0 < cfg.PassRateRequiredAllTests) :
    assessComponentStatus sample (some b) cfg pityAdj reqAdj =
      ⟨buildPassRateStatus sample (requiredPct cfg.PassRateRequiredAllTests reqAdj)
        cfg.MinimumFailure cfg.FlakeAsFailure, ComparisonMode.passRate, none, []⟩ := by
  simp only [assessComponentStatus, if_neg (not_le.mpr hb), if_neg hs, if_pos hall]

/-- In the no-basis branch, a new-test assessment that finds no regression
falls through to `MissingBasis` when pass-rate-for-all-tests mode is off. -/
theorem assessNoBase_notRegressed (sample : Stats) (cfg : Advanced) (reqAdj : ℚ)
    (hs : ¬ sample.Total = 0) (hall : cfg.PassRateRequiredAllTests ≤ 0)
    (hnot : buildPassRateStatus sample (requiredPct cfg.PassRateRequiredNewTests reqAdj)
      cfg.MinimumFailure cfg.FlakeAsFailure = NotSignificant) :
    (assessNoBase sample cfg reqAdj).status = MissingBasis := by
  simp only [assessNoBase, if_neg hs]
  have hnewSt :
      (if 0 < cfg.PassRateRequiredNewTests then
        buildPassRateStatus sample (requiredPct cfg.PassRateRequiredNewTests reqAdj)
          cfg.MinimumFailure cfg.FlakeAsFailure
      else NotSignificant) = NotSignificant := by
    rcases lt_or_ge 0 cfg.PassRateRequiredNewTests with h | h
    · rw [if_pos h, hnot]
    · rw [if_neg (not_lt.mpr h)]
  rw [hnewSt]
  simp only [ne_eq, not_true_eq_false, if_false, if_neg (not_lt.mpr hall), ite_false]

end Sippy

open Sippy in
attribute [local semireducible] Rat.add Rat.mul Rat.inv Rat.sub in
/-- Counterexample to claim C2: at the inputs of test row "pass rate mode
insufficient runs to trigger" (sample total 6, all failures, required rate
95), the sample total 6 is not below the claimed threshold
`ceil(100/95) = 2`, and the evaluated pass-rate comparison would be a
regression (the banding of the sample is `ExtremeRegression`), yet the
kernel returns `NotSignificant` — so `NotSignificant` is not returned
exactly when the total is below `ceil(100/requiredPassRate)`. -/
theorem assess_sufficiency_C2_counterexample :
    (assessComponentStatus ⟨0, 6, 0⟩ (some ⟨0, 0, 0⟩)
      { PassRateRequiredAllTests := 95 } 0 0).status = NotSignificant ∧
    Int.ceil ((100 : ℚ) / 95) = 2 ∧
    ¬ (Stats.Total ⟨0, 6, 0⟩ < 2) ∧
    passRateBand ⟨0, 6, 0⟩ (requiredPct 95 0) false = ExtremeRegression := by
  refine ⟨by decide, by decide, by decide, by decide⟩

open Sippy in
/-- Claim C2 amended: in pass-rate mode the minimum-sample threshold is the
constant 7, not `ceil(100/requiredPassRate)`: a non-empty sample with fewer
than 7 runs returns `NotSignificant`, and with at least 7 runs (and at
least the minimum failures) the three-way pass-rate banding is evaluated.
In the new-test branch (pass-rate-for-all-tests mode off) a sample with
fewer than 7 runs instead falls through to `MissingBasis`, since a new
test without a regression reports a missing basis.  In particular, with
required rate 95 a sample of total 6 is not evaluated and one of total 7
is. -/
theorem assess_sufficiency_threshold_seven (sample b : Stats) (cfg : Advanced)
    (pityAdj reqAdj : ℚ) :
    (0 < b.Total → 0 < cfg.PassRateRequiredAllTests → ¬ sample.Total = 0 →
      sample.Total < minimumRunsForPassRate →
      (assessComponentStatus sample (some b) cfg pityAdj reqAdj).status = NotSignificant) ∧
    (0 < b.Total → 0 < cfg.PassRateRequiredAllTests → minimumRunsForPassRate ≤ sample.Total →
      cfg.MinimumFailure ≤ sample.FailureCount →
      (assessComponentStatus sample (some b) cfg pityAdj reqAdj).status =
        passRateBand sample (requiredPct cfg.PassRateRequiredAllTests reqAdj)
          cfg.FlakeAsFailure) ∧
    (0 < cfg.PassRateRequiredNewTests → cfg.PassRateRequiredAllTests ≤ 0 →
      ¬ sample.Total = 0 → sample.Total < minimumRunsForPassRate →
      (assessComponentStatus sample none cfg pityAdj reqAdj).status = MissingBasis) := by
  refine ⟨?_, ?_, ?_⟩
  · intro hb hall hs h7
    rw [assess_passRateMode sample b cfg pityAdj reqAdj hb hs hall]
    exact buildPassRateStatus_insufficient _ _ _ _ h7
  · intro hb hall h7 hmf
    have hs : ¬ sample.Total = 0 := by
      simp only [minimumRunsForPassRate] at h7
      omega
    rw [assess_passRateMode sample b cfg pityAdj reqAdj hb hs hall]
    exact buildPassRateStatus_eval _ _ _ _ h7 hmf
  · intro hnew hall hs h7
    rw [assess_baseMissing sample none cfg pityAdj reqAdj trivial]
    exact assessNoBase_notRegressed _ _ _ hs hall
      (buildPassRateStatus_insufficient _ _ _ _ h7)

open Sippy in
attribute [local semireducible] Rat.add Rat.mul Rat.inv Rat.sub in
/-- Witness for the amended claim C2: with required rate 95, a sample of
total 6 (below 7) returns `NotSignificant` and a sample of total 7 is
evaluated to its banding. -/
theorem assess_sufficiency_threshold_seven_witness :
    ((0 : Int) < Stats.Total ⟨1, 0, 0⟩ ∧
      (0 : Int) < ({ PassRateRequiredAllTests := 95 } : Advanced).PassRateRequiredAllTests ∧
      ¬ Stats.Total ⟨0, 6, 0⟩ = 0 ∧ Stats.Total ⟨0, 6, 0⟩ < minimumRunsForPassRate ∧
      minimumRunsForPassRate ≤ Stats.Total ⟨6, 1, 0⟩ ∧
      ({ PassRateRequiredAllTests := 95 } : Advanced).MinimumFailure ≤
        (⟨6, 1, 0⟩ : Stats).FailureCount) ∧
    (assessComponentStatus ⟨0, 6, 0⟩ (some ⟨1, 0, 0⟩)
      { PassRateRequiredAllTests := 95 } 0 0).status = NotSignificant ∧
    (assessComponentStatus ⟨6, 1, 0⟩ (some ⟨1, 0, 0⟩)
      { PassRateRequiredAllTests := 95 } 0 0).status =
      passRateBand ⟨6, 1, 0⟩ (requiredPct 95 0) false :=
  ⟨⟨by decide, by decide, by decide, by decide, by decide, by decide⟩,
    (assess_sufficiency_threshold_seven ⟨0, 6, 0⟩ ⟨1, 0, 0⟩
      { PassRateRequiredAllTests := 95 } 0 0).1 (by decide) (by decide) (by decide) (by decide),
    (assess_sufficiency_threshold_seven ⟨6, 1, 0⟩ ⟨1, 0, 0⟩
      { PassRateRequiredAllTests := 95 } 0 0).2.1 (by decide) (by decide) (by decide) (by decide)⟩

open Sippy in
attribute [local semireducible] Rat.add Rat.mul Rat.inv Rat.sub in
/-- Counterexample to claim C3: the sample 7/6/0 at required rate 95 (the
inputs of test row "pass rate mode barely sufficient runs to trigger" and
of spec scenario S7) has pass rate 6/7, which lies at or above the claimed
extreme threshold `95/100 - 0.15 = 0.80` and below the required `0.95`, so
under the claimed banding it would be `SignificantRegression`; the kernel
returns `ExtremeRegression`. -/
theorem assess_banding_C3_counterexample :
    (assessComponentStatus ⟨6, 1, 0⟩ (some ⟨0, 0, 0⟩)
      { PassRateRequiredAllTests := 95 } 0 0).status = ExtremeRegression ∧
    (95 : ℚ) / 100 - 15 / 100 ≤ Stats.PassRate ⟨6, 1, 0⟩ false ∧
    Stats.PassRate ⟨6, 1, 0⟩ false < (95 : ℚ) / 100 ∧
    ExtremeRegression ≠ SignificantRegression := by
  refine ⟨by decide, by decide, by decide, by decide⟩

open Sippy in
/-- Claim C3 amended: the extreme threshold of the pass-rate banding is
`required - (100 - required)` percent — twice the allowed failure margin
below the required rate — not `required - 15`: an evaluated sample below
the required rate is `ExtremeRegression` exactly when its pass rate is
strictly below that threshold and `SignificantRegression` otherwise, in
pass-rate mode and in the new-test branch alike.  In particular at required
rate 95 the extreme threshold is 90 percent, so the sample 7/6/0 of
scenario S7 (85.7 percent) is `ExtremeRegression`, as S7 asserts. -/
theorem assess_severity_banding (sample b : Stats) (cfg : Advanced) (pityAdj reqAdj : ℚ) :
    (0 < b.Total → 0 < cfg.PassRateRequiredAllTests → minimumRunsForPassRate ≤ sample.Total →
      cfg.MinimumFailure ≤ sample.FailureCount →
      sample.PassRate cfg.FlakeAsFailure * 100 < requiredPct cfg.PassRateRequiredAllTests reqAdj →
      (assessComponentStatus sample (some b) cfg pityAdj reqAdj).status =
        if sample.PassRate cfg.FlakeAsFailure * 100 <
            severePct (requiredPct cfg.PassRateRequiredAllTests reqAdj)
        then ExtremeRegression else SignificantRegression) ∧
    (0 < cfg.PassRateRequiredNewTests → minimumRunsForPassRate ≤ sample.Total →
      cfg.MinimumFailure ≤ sample.FailureCount →
      sample.PassRate cfg.FlakeAsFailure * 100 < requiredPct cfg.PassRateRequiredNewTests reqAdj →
      (assessComponentStatus sample none cfg pityAdj reqAdj).status =
        if sample.PassRate cfg.FlakeAsFailure * 100 <
            severePct (requiredPct cfg.PassRateRequiredNewTests reqAdj)
        then ExtremeRegression else SignificantRegression) := by
  constructor
  · intro hb hall h7 hmf hrate
    have hs : ¬ sample.Total = 0 := by
      simp only [minimumRunsForPassRate] at h7
      omega
    rw [assess_passRateMode sample b cfg pityAdj reqAdj hb hs hall]
    show buildPassRateStatus sample (requiredPct cfg.PassRateRequiredAllTests reqAdj)
      cfg.MinimumFailure cfg.FlakeAsFailure = _
    rw [buildPassRateStatus_eval _ _ _ _ h7 hmf]
    simp only [passRateBand]
    rw [if_neg (not_le.mpr hrate)]
  · intro hnew h7 hmf hrate
    have hs : ¬ sample.Total = 0 := by
      simp only [minimumRunsForPassRate] at h7
      omega
    rw [assess_baseMissing sample none cfg pityAdj reqAdj trivial]
    simp only [assessNoBase, if_neg hs, if_pos hnew]
    rw [buildPassRateStatus_eval _ _ _ _ h7 hmf]
    simp only [passRateBand]
    rw [if_neg (not_le.mpr hrate)]
    have hne : (if sample.PassRate cfg.FlakeAsFailure * 100 <
        severePct (requiredPct cfg.PassRateRequiredNewTests reqAdj)
        then ExtremeRegression else SignificantRegression) ≠ NotSignificant := by
      split
      · decide
      · decide
    rw [if_pos hne]

open Sippy in
attribute [local semireducible] Rat.add Rat.mul Rat.inv Rat.sub in
/-- Witness for the amended claim C3: the scenario S7 sample 7/6/0 at
required rate 95 in the new-test branch evaluates below the 90 percent
extreme threshold, so the kernel returns `ExtremeRegression`. -/
theorem assess_severity_banding_witness :
    ((0 : Int) < ({ PassRateRequiredNewTests := 95 } : Advanced).PassRateRequiredNewTests ∧
      minimumRunsForPassRate ≤ Stats.Total ⟨6, 1, 0⟩ ∧
      ({ PassRateRequiredNewTests := 95 } : Advanced).MinimumFailure ≤
        (⟨6, 1, 0⟩ : Stats).FailureCount ∧
      Stats.PassRate ⟨6, 1, 0⟩ false * 100 < requiredPct 95 0) ∧
    (assessComponentStatus ⟨6, 1, 0⟩ none { PassRateRequiredNewTests := 95 } 0 0).status =
      if Stats.PassRate ⟨6, 1, 0⟩ false * 100 < severePct (requiredPct 95 0)
      then ExtremeRegression else SignificantRegression :=
  ⟨⟨by decide, by decide, by decide, by decide⟩,
    (assess_severity_banding ⟨6, 1, 0⟩ ⟨1, 0, 0⟩ { PassRateRequiredNewTests := 95 } 0 0).2
      (by decide) (by decide) (by decide) (by decide)⟩

open Sippy in
attribute [local semireducible] Rat.add Rat.mul Rat.inv Rat.sub in
set_option maxRecDepth 100000 in
/-- Claim C4, scenario S2: for base 1000/900/10 and sample 100/50/1 with
the default advanced options (confidence 95, pity 5, minimum failure 3,
flakes not failures), Fisher mode returns `ExtremeRegression`; the exposed
probability is the one-sided tail for the table passes/fails 51/49 versus
910/90, within `1e-6` of `1.8251046156331867e-21` absolutely, and within
one part in `1e4` of it relatively; and the explanations are exactly the
three lines the repository test expects, including
"Test pass rate dropped from 91.00% to 51.00%.". -/
theorem assess_S2_extremeRegression :
    (assessComponentStatus ⟨50, 49, 1⟩ (some ⟨900, 90, 10⟩)
      { Confidence := 95, PityFactor := 5, MinimumFailure := 3 } 0 0).status =
        ExtremeRegression ∧
    (assessComponentStatus ⟨50, 49, 1⟩ (some ⟨900, 90, 10⟩)
      { Confidence := 95, PityFactor := 5, MinimumFailure := 3 } 0 0).fisherExact =
        some (fisherLowerTail 51 49 910 90) ∧
    |fisherLowerTail 51 49 910 90 - 18251046156331867 / 10 ^ 37| ≤ 1 / 10 ^ 6 ∧
    |fisherLowerTail 51 49 910 90 - 18251046156331867 / 10 ^ 37| ≤
      18251046156331867 / 10 ^ 41 ∧
    (assessComponentStatus ⟨50, 49, 1⟩ (some ⟨900, 90, 10⟩)
      { Confidence := 95, PityFactor := 5, MinimumFailure := 3 } 0 0).explanations =
      ["Extreme regression detected.",
       "Fishers Exact probability of a regression: 100.00%.",
       "Test pass rate dropped from 91.00% to 51.00%."] ∧
    "Test pass rate dropped from 91.00% to 51.00%." ∈
      (assessComponentStatus ⟨50, 49, 1⟩ (some ⟨900, 90, 10⟩)
        { Confidence := 95, PityFactor := 5, MinimumFailure := 3 } 0 0).explanations := by
  refine ⟨by decide, by decide, by decide, by decide, by decide, by decide⟩

namespace Sippy

/-! ### Byte-lexicographic string order

Go sorts map keys with the built-in string order, byte-wise lexicographic.
The comparison is implemented here directly on the character lists so that
it both evaluates and supports the order reasoning the sorting lemmas
need. -/

/-- Byte-lexicographic strict order on character lists. -/
def charListLt : List Char → List Char → Bool
  | [], [] => false
  | [], _ :: _ => true
  | _ :: _, [] => false
  | a :: as, b :: bs => Nat.blt a.toNat b.toNat ||
      (Nat.beq a.toNat b.toNat && charListLt as bs)

theorem char_toNat_inj {a b : Char} (h : a.toNat = b.toNat) : a = b := by
  apply Char.ext
  have hbv : a.val.toBitVec = b.val.toBitVec := BitVec.eq_of_toNat_eq h
  cases hv : a.val
  cases hw : b.val
  rw [hv, hw] at hbv
  simp_all

theorem charListLt_cons_iff {a b : Char} {as bs : List Char} :
    charListLt (a :: as) (b :: bs) = true ↔
      a.toNat < b.toNat ∨ (a.toNat = b.toNat ∧ charListLt as bs = true) := by
  simp [charListLt, Nat.blt_eq, Nat.beq_eq, Bool.or_eq_true, Bool.and_eq_true]

theorem charListLt_cons_false_iff {a b : Char} {as bs : List Char} :
    charListLt (a :: as) (b :: bs) = false ↔
      ¬ (a.toNat < b.toNat ∨ (a.toNat = b.toNat ∧ charListLt as bs = true)) := by
  rw [← charListLt_cons_iff, Bool.eq_false_iff, ne_eq]

theorem charListLt_irrefl : ∀ l : List Char, charListLt l l = false
  | [] => rfl
  | a :: as => by
    rw [charListLt_cons_false_iff]
    push_neg
    refine ⟨Nat.le_refl _, fun _ => ?_⟩
    rw [charListLt_irrefl as]
    exact Bool.false_ne_true

theorem charListLt_trans : ∀ {a b c : List Char},
    charListLt a b = true → charListLt b c = true → charListLt a c = true
  | [], _ :: _, _ :: _, _, _ => rfl
  | [], [], _, h, _ => by simp [charListLt] at h
  | _, [], [], _, h => by simp [charListLt] at h
  | _ :: _, _ :: _, [], _, h => by simp [charListLt] at h
  | a :: as, b :: bs, c :: cs, h1, h2 => by
    rw [charListLt_cons_iff] at h1 h2 ⊢
    rcases h1 with h1 | ⟨h1e, h1t⟩ <;> rcases h2 with h2 | ⟨h2e, h2t⟩
    · exact Or.inl (Nat.lt_trans h1 h2)
    · exact Or.inl (h2e ▸ h1)
    · exact Or.inl (h1e ▸ h2)
    · exact Or.inr ⟨h1e.trans h2e, charListLt_trans h1t h2t⟩

theorem charListLt_connex : ∀ {a b : List Char},
    charListLt a b = false → charListLt b a = false → a = b
  | [], [], _, _ => rfl
  | [], _ :: _, h, _ => by simp [charListLt] at h
  | _ :: _, [], _, h => by simp [charListLt] at h
  | a :: as, b :: bs, h1, h2 => by
    rw [charListLt_cons_false_iff] at h1 h2
    push_neg at h1 h2
    have he : a.toNat = b.toNat := by omega
    have ht : as = bs := by
      have t1 := h1.2 he
      have t2 := h2.2 he.symm
      exact charListLt_connex (Bool.not_eq_true _ ▸ t1 : _) (Bool.not_eq_true _ ▸ t2 : _)
    rw [char_toNat_inj he, ht]

theorem charListLt_asymm {a b : List Char} (h : charListLt a b = true) :
    charListLt b a = false := by
  by_contra hc
  have hc' : charListLt b a = true := by
    rcases hv : charListLt b a with _ | _
    · exact absurd hv hc
    · rfl
  have := charListLt_trans h hc'
  rw [charListLt_irrefl] at this
  exact Bool.false_ne_true this

/-- Byte-lexicographic strict order on strings. -/
def strLt (a b : String) : Prop := charListLt a.data b.data = true

/-- Byte-lexicographic order on strings (the negation of the reverse
strict order). -/
def strLe (a b : String) : Prop := charListLt b.data a.data = false

instance strLt.instDecidable : DecidableRel strLt := fun _ _ =>
  inferInstanceAs (Decidable (_ = true))

instance strLe.instDecidable : DecidableRel strLe := fun _ _ =>
  inferInstanceAs (Decidable (_ = false))

theorem strLe_refl (a : String) : strLe a a := charListLt_irrefl _

theorem str_eq_of_data_eq {a b : String} (h : a.data = b.data) : a = b := by
  cases a
  cases b
  simp_all

theorem strLe_antisymm {a b : String} (h1 : strLe a b) (h2 : strLe b a) : a = b :=
  str_eq_of_data_eq (charListLt_connex h2 h1)

theorem strLe_total (a b : String) : strLe a b ∨ strLe b a := by
  rcases hc : charListLt b.data a.data with _ | _
  · exact Or.inl hc
  · exact Or.inr (charListLt_asymm hc)

theorem strLe_trans {a b c : String} (h1 : strLe a b) (h2 : strLe b c) : strLe a c := by
  have h1' : charListLt b.data a.data = false := h1
  have h2' : charListLt c.data b.data = false := h2
  show charListLt c.data a.data = false
  rcases hca : charListLt c.data a.data with _ | _
  · rfl
  · exfalso
    rcases hab : charListLt a.data b.data with _ | _
    · rcases hbc : charListLt b.data c.data with _ | _
      · have e1 : a.data = b.data := charListLt_connex hab h1'
        have e2 : b.data = c.data := charListLt_connex hbc h2'
        rw [e1, e2, charListLt_irrefl] at hca
        exact Bool.false_ne_true hca
      · have := charListLt_trans hbc hca
        rw [this] at h1'
        exact Bool.noConfusion h1'
    · have := charListLt_trans hca hab
      rw [this] at h2'
      exact Bool.noConfusion h2'

theorem strLe_of_lt {a b : String} (h : strLt a b) : strLe a b :=
  charListLt_asymm h

end Sippy

namespace Sippy

/-! ### Canonical test-key serialization (types.go, KeyOrDie)

`KeyOrDie` marshals `TestWithVariantsKey` with Go `encoding/json`, whose
documented behaviour (restated by the comment on `KeyOrDie` itself) emits
struct fields in declaration order and map keys in sorted order.  The
variants map is modelled as an association list whose construction order
is immaterial; the model sorts it by key (byte-lexicographic, as Go sorts
strings).  Keys of a Go map are unique, so the sort is keyed on the pair
with the value as tiebreaker, which coincides with key order on every list
that represents a map.  JSON escaping of special characters inside the
strings is the identity on the characters appearing in any claim. -/

/-- Order on variant pairs: by key, value as tiebreaker. -/
def pairLe (a b : String × String) : Prop :=
  strLt a.1 b.1 ∨ (a.1 = b.1 ∧ strLe a.2 b.2)

instance pairLe.instDecidable : DecidableRel pairLe := fun _ _ =>
  inferInstanceAs (Decidable (_ ∨ _))

instance pairLe.instIsTotal : IsTotal (String × String) pairLe where
  total a b := by
    rcases hab : charListLt a.1.data b.1.data with _ | _
    · rcases hba : charListLt b.1.data a.1.data with _ | _
      · have he : a.1 = b.1 := str_eq_of_data_eq (charListLt_connex hab hba)
        rcases strLe_total a.2 b.2 with h | h
        · exact Or.inl (Or.inr ⟨he, h⟩)
        · exact Or.inr (Or.inr ⟨he.symm, h⟩)
      · exact Or.inr (Or.inl hba)
    · exact Or.inl (Or.inl hab)

instance pairLe.instIsTrans : IsTrans (String × String) pairLe where
  trans a b c h1 h2 := by
    rcases h1 with h1 | ⟨h1e, h1v⟩ <;> rcases h2 with h2 | ⟨h2e, h2v⟩
    · exact Or.inl (charListLt_trans h1 h2)
    · exact Or.inl (h2e ▸ h1)
    · exact Or.inl (h1e ▸ h2)
    · exact Or.inr ⟨h1e.trans h2e, strLe_trans h1v h2v⟩

theorem strLt_asymm {a b : String} (h : strLt a b) : ¬ strLt b a := fun h2 =>
  Bool.noConfusion (h2.symm.trans (charListLt_asymm h))

theorem strLt_irrefl (a : String) : ¬ strLt a a := fun h =>
  Bool.noConfusion (h.symm.trans (charListLt_irrefl a.data))

instance pairLe.instIsAntisymm : IsAntisymm (String × String) pairLe where
  antisymm a b h1 h2 := by
    obtain ⟨a1, a2⟩ := a
    obtain ⟨b1, b2⟩ := b
    rcases h1 with h1 | ⟨h1e, h1v⟩ <;> rcases h2 with h2 | ⟨h2e, h2v⟩
    · exact absurd h2 (strLt_asymm h1)
    · dsimp only at h1 h2e
      rw [h2e] at h1
      exact absurd h1 (strLt_irrefl _)
    · dsimp only at h2 h1e
      rw [h1e] at h2
      exact absurd h2 (strLt_irrefl _)
    · dsimp only at h1e h1v h2v
      rw [Prod.mk.injEq]
      exact ⟨h1e, strLe_antisymm h1v h2v⟩

/-- `TestWithVariantsKey` (types.go): the unique test id plus the variants
map, modelled as an association list. -/
structure TestWithVariantsKey where
  TestID : String
  Variants : List (String × String)
  deriving DecidableEq, Repr

/-- The variants in serialization order: sorted by key. -/
def sortVariants (l : List (String × String)) : List (String × String) :=
  List.insertionSort pairLe l

/-- A JSON string literal (escaping of special characters not modelled). -/
def jsonStr (s : String) : String := "\"" ++ s ++ "\""

/-- `KeyOrDie` (types.go): the canonical JSON serialization used as the
map key for base/sample joins. -/
def KeyOrDie (t : TestWithVariantsKey) : String :=
  "\x7b" ++ jsonStr "test_id" ++ ":" ++ jsonStr t.TestID ++ "," ++
    jsonStr "variants" ++ ":\x7b" ++
    String.intercalate ","
      ((sortVariants t.Variants).map (fun p => jsonStr p.1 ++ ":" ++ jsonStr p.2)) ++
    "\x7d\x7d"

/-- The variant keys in the order `KeyOrDie` emits them. -/
def serializedKeyOrder (t : TestWithVariantsKey) : List String :=
  (sortVariants t.Variants).map Prod.fst

end Sippy

open Sippy in
/-- Claim C9: `KeyOrDie` is deterministic and order-independent — two keys
with the same `TestID` whose variant lists are permutations of one another
(the same map, constructed in any order) serialize to the identical
string — and the variant keys appear in the serialization in
byte-lexicographically sorted order. -/
theorem keyOrDie_canonical (t u : TestWithVariantsKey)
    (hid : t.TestID = u.TestID) (hperm : t.Variants.Perm u.Variants) :
    KeyOrDie t = KeyOrDie u ∧ List.Sorted strLe (serializedKeyOrder t) := by
  constructor
  · have hsorted : sortVariants t.Variants = sortVariants u.Variants :=
      List.eq_of_perm_of_sorted
        (((List.perm_insertionSort pairLe t.Variants).trans hperm).trans
          (List.perm_insertionSort pairLe u.Variants).symm)
        (List.sorted_insertionSort pairLe t.Variants)
        (List.sorted_insertionSort pairLe u.Variants)
    simp only [KeyOrDie, hid, hsorted]
  · have hs : List.Sorted pairLe (sortVariants t.Variants) :=
      List.sorted_insertionSort pairLe t.Variants
    simp only [serializedKeyOrder, List.Sorted, List.pairwise_map]
    refine hs.imp ?_
    intro a b hab
    rcases hab with h | ⟨he, _⟩
    · exact strLe_of_lt h
    · rw [he]
      exact strLe_refl _

open Sippy in
/-- Witness for claim C9: the two-variant map listed in either order
serializes identically, with keys in sorted order. -/
theorem keyOrDie_canonical_witness :
    (TestWithVariantsKey.mk "1" [("Platform", "aws"), ("Network", "ovn")]).TestID =
      (TestWithVariantsKey.mk "1" [("Network", "ovn"), ("Platform", "aws")]).TestID ∧
    (TestWithVariantsKey.mk "1" [("Platform", "aws"), ("Network", "ovn")]).Variants.Perm
      (TestWithVariantsKey.mk "1" [("Network", "ovn"), ("Platform", "aws")]).Variants ∧
    KeyOrDie (TestWithVariantsKey.mk "1" [("Platform", "aws"), ("Network", "ovn")]) =
      KeyOrDie (TestWithVariantsKey.mk "1" [("Network", "ovn"), ("Platform", "aws")]) ∧
    List.Sorted strLe
      (serializedKeyOrder (TestWithVariantsKey.mk "1" [("Platform", "aws"), ("Network", "ovn")])) :=
  ⟨rfl, List.Perm.swap _ _ _,
    (keyOrDie_canonical (TestWithVariantsKey.mk "1" [("Platform", "aws"), ("Network", "ovn")])
      (TestWithVariantsKey.mk "1" [("Network", "ovn"), ("Platform", "aws")]) rfl
      (List.Perm.swap _ _ _)).1,
    (keyOrDie_canonical (TestWithVariantsKey.mk "1" [("Platform", "aws"), ("Network", "ovn")])
      (TestWithVariantsKey.mk "1" [("Network", "ovn"), ("Platform", "aws")]) rfl
      (List.Perm.swap _ _ _)).2⟩

namespace Sippy

/-! ### The report aggregator

`generateComponentTestReport` is not part of the provided sources; only
its unit test `TestGenerateComponentReport` is.  The model below follows
specification section 4.7 for the bucket reduction the claims concern:
every joined entry carries the verdict the kernel produced for it
(`MissingSample`/`MissingBasis` verdicts arise from one-sided entries
upstream), entries are bucketed by (component row, projected column), a
non-empty bucket reduces to the worst (minimum) status, and a grid cell
with no entries from either side is `MissingBasisAndSample`.  Deviation
from the specification text pinned by the unit test: only regression
verdicts are retained in `RegressedTests` — the expected report of test
case "top page test with both improvement and regression" has an empty
`RegressedTests` for the `SignificantImprovement` column — so retention is
`status ≤ SignificantTriagedRegression`, not every non-`NotSignificant`
verdict.  Row and column ordering is not the subject of any claim; rows
are sorted, columns enumerated in first-appearance order. -/

/-- One joined entry: identification, the projected variants, and the
kernel verdict. -/
structure AggEntry where
  component : String
  testName : String
  testID : String
  variants : List (String × String)
  status : Status
  deriving DecidableEq, Repr

/-- Severity-then-name order for `RegressedTests`. -/
def regressedOrder (a b : AggEntry) : Prop :=
  a.status < b.status ∨ (a.status = b.status ∧ strLe a.testName b.testName)

instance regressedOrder.instDecidable : DecidableRel regressedOrder := fun _ _ =>
  inferInstanceAs (Decidable (_ ∨ _))

instance regressedOrder.instIsTotal : IsTotal AggEntry regressedOrder where
  total a b := by
    rcases Int.lt_trichotomy a.status b.status with h | h | h
    · exact Or.inl (Or.inl h)
    · rcases strLe_total a.testName b.testName with hle | hle
      · exact Or.inl (Or.inr ⟨h, hle⟩)
      · exact Or.inr (Or.inr ⟨h.symm, hle⟩)
    · exact Or.inr (Or.inl h)

instance regressedOrder.instIsTrans : IsTrans AggEntry regressedOrder where
  trans a b c h1 h2 := by
    rcases h1 with h1 | ⟨h1e, h1v⟩ <;> rcases h2 with h2 | ⟨h2e, h2v⟩
    · exact Or.inl (Int.lt_trans h1 h2)
    · exact Or.inl (h2e ▸ h1)
    · exact Or.inl (h1e ▸ h2)
    · exact Or.inr ⟨h1e.trans h2e, strLe_trans h1v h2v⟩

instance strLe.instIsTotal : IsTotal String strLe where
  total := strLe_total

instance strLe.instIsTrans : IsTrans String strLe where
  trans _ _ _ := strLe_trans

/-- Project the variants onto the configured group-by keys, canonically
sorted. -/
def projectColumn (dbGroupBy : List String) (variants : List (String × String)) :
    List (String × String) :=
  List.insertionSort pairLe (variants.filter (fun p => decide (p.1 ∈ dbGroupBy)))

/-- The entries of the (row, column) bucket. -/
def bucketOf (dbGroupBy : List String) (entries : List AggEntry) (comp : String)
    (col : List (String × String)) : List AggEntry :=
  entries.filter (fun e =>
    decide (e.component = comp) && decide (projectColumn dbGroupBy e.variants = col))

/-- The worst (minimum) status of a bucket, reduced incrementally; an
empty bucket (present in neither side) is `MissingBasisAndSample`. -/
def columnStatusOf (bucket : List AggEntry) : Status :=
  match bucket with
  | [] => MissingBasisAndSample
  | e :: rest => rest.foldl (fun acc x => if x.status < acc then x.status else acc) e.status

/-- The retained regression verdicts, sorted by severity then test name. -/
def regressedTestsOf (bucket : List AggEntry) : List AggEntry :=
  List.insertionSort regressedOrder
    (bucket.filter (fun e => decide (e.status ≤ SignificantTriagedRegression)))

/-- One report cell. -/
structure ReportCell where
  status : Status
  regressed : List AggEntry
  deriving DecidableEq, Repr

/-- Build the cell of a (row, column) bucket. -/
def buildCell (dbGroupBy : List String) (entries : List AggEntry) (comp : String)
    (col : List (String × String)) : ReportCell :=
  { status := columnStatusOf (bucketOf dbGroupBy entries comp col)
    regressed := regressedTestsOf (bucketOf dbGroupBy entries comp col) }

/-- The report rows: the components, sorted. -/
def reportComponents (entries : List AggEntry) : List String :=
  List.insertionSort strLe (entries.map AggEntry.component).dedup

/-- The report columns: the projected variant combinations that occur. -/
def reportColumns (dbGroupBy : List String) (entries : List AggEntry) :
    List (List (String × String)) :=
  (entries.map (fun e => projectColumn dbGroupBy e.variants)).dedup

/-- The aggregated report: the full (row, column) grid of cells. -/
def aggregateReport (dbGroupBy : List String) (entries : List AggEntry) :
    List (String × List (List (String × String) × ReportCell)) :=
  (reportComponents entries).map (fun comp =>
    (comp, (reportColumns dbGroupBy entries).map (fun col =>
      (col, buildCell dbGroupBy entries comp col))))

theorem columnStatus_foldl_mem : ∀ (l : List AggEntry) (a : Status),
    l.foldl (fun acc x => if x.status < acc then x.status else acc) a ∈
      a :: l.map AggEntry.status
  | [], a => by simp
  | x :: xs, a => by
    simp only [List.foldl_cons, List.map_cons]
    have ih := columnStatus_foldl_mem xs (if x.status < a then x.status else a)
    rcases List.mem_cons.mp ih with h | h
    · rw [h]
      split
      · simp
      · simp
    · simp [h]

theorem columnStatus_foldl_le : ∀ (l : List AggEntry) (a : Status),
    ∀ s ∈ a :: l.map AggEntry.status,
      l.foldl (fun acc x => if x.status < acc then x.status else acc) a ≤ s
  | [], a => by
    intro s hs
    simp only [List.map_nil, List.mem_singleton] at hs
    simp [hs]
  | x :: xs, a => by
    intro s hs
    simp only [List.foldl_cons]
    have hmin1 : (if x.status < a then x.status else a) ≤ a := by
      rcases lt_or_ge x.status a with h | h
      · rw [if_pos h]
        exact le_of_lt h
      · rw [if_neg (not_lt.mpr h)]
    have hmin2 : (if x.status < a then x.status else a) ≤ x.status := by
      rcases lt_or_ge x.status a with h | h
      · rw [if_pos h]
      · rw [if_neg (not_lt.mpr h)]
        exact h
    have ihhead := columnStatus_foldl_le xs (if x.status < a then x.status else a)
      (if x.status < a then x.status else a) (List.mem_cons_self _ _)
    simp only [List.map_cons] at hs
    rcases List.mem_cons.mp hs with h | h
    · subst h
      exact le_trans ihhead hmin1
    · rcases List.mem_cons.mp h with h' | h'
      · subst h'
        exact le_trans ihhead hmin2
      · exact columnStatus_foldl_le xs _ s (List.mem_cons_of_mem _ h')

end Sippy

open Sippy in
/-- Claim C5 amended: for every (row, column) cell of the aggregated
report, an empty bucket (entries from neither side) yields
`MissingBasisAndSample`; a non-empty bucket yields the minimum signed
status among its verdicts; and `RegressedTests` retains exactly the
regression verdicts (status at or below `SignificantTriagedRegression` —
improvements and missing-data markers are not retained, unlike the
claimed "all non-NotSignificant verdicts"), sorted by severity ascending
and then by test name. -/
theorem aggregate_cell_reduction (dbGroupBy : List String) (entries : List AggEntry)
    (row : String × List (List (String × String) × ReportCell))
    (cell : List (String × String) × ReportCell)
    (hrow : row ∈ aggregateReport dbGroupBy entries) (hcell : cell ∈ row.2) :
    (bucketOf dbGroupBy entries row.1 cell.1 = [] →
      cell.2.status = MissingBasisAndSample) ∧
    (bucketOf dbGroupBy entries row.1 cell.1 ≠ [] →
      cell.2.status ∈ (bucketOf dbGroupBy entries row.1 cell.1).map AggEntry.status ∧
      ∀ s ∈ (bucketOf dbGroupBy entries row.1 cell.1).map AggEntry.status,
        cell.2.status ≤ s) ∧
    cell.2.regressed.Perm ((bucketOf dbGroupBy entries row.1 cell.1).filter
      (fun e => decide (e.status ≤ SignificantTriagedRegression))) ∧
    List.Sorted regressedOrder cell.2.regressed := by
  obtain ⟨comp, _, rfl⟩ := List.mem_map.mp hrow
  obtain ⟨col, _, rfl⟩ := List.mem_map.mp hcell
  refine ⟨?_, ?_, ?_, ?_⟩
  · intro hempty
    simp only [buildCell, columnStatusOf, hempty]
  · intro hne
    rcases hbucket : bucketOf dbGroupBy entries comp col with _ | ⟨e, rest⟩
    · exact absurd hbucket hne
    · constructor
      · have := columnStatus_foldl_mem rest e.status
        simpa [buildCell, columnStatusOf, hbucket] using this
      · intro s hs
        have := columnStatus_foldl_le rest e.status s (by simpa [hbucket] using hs)
        simpa [buildCell, columnStatusOf, hbucket] using this
  · exact List.perm_insertionSort regressedOrder _
  · exact List.sorted_insertionSort regressedOrder _

open Sippy in
/-- Counterexample to claim C5 as stated: a bucket holding one
`SignificantImprovement` verdict has a non-`NotSignificant` verdict, yet
its `RegressedTests` list is empty — improvements are not retained. -/
theorem aggregate_improvement_not_retained_C5_counterexample :
    (buildCell ["Network"]
      [{ component := "component 2", testName := "test 2", testID := "2",
         variants := [("Network", "sdn")], status := SignificantImprovement }]
      "component 2" [("Network", "sdn")]).status = SignificantImprovement ∧
    (buildCell ["Network"]
      [{ component := "component 2", testName := "test 2", testID := "2",
         variants := [("Network", "sdn")], status := SignificantImprovement }]
      "component 2" [("Network", "sdn")]).regressed = [] ∧
    (bucketOf ["Network"]
      [{ component := "component 2", testName := "test 2", testID := "2",
         variants := [("Network", "sdn")], status := SignificantImprovement }]
      "component 2" [("Network", "sdn")]).filter
        (fun e => decide (¬ e.status = NotSignificant)) ≠ [] := by
  refine ⟨by decide, by decide, by decide⟩

namespace Sippy

/-- The single improvement entry used to instantiate claim C5. -/
def sampleImprovementEntry : AggEntry :=
  { component := "component 2", testName := "test 2", testID := "2",
    variants := [("Network", "sdn")], status := SignificantImprovement }

/-- The row of the one-entry report, used by the claim C5 witness. -/
def witnessRow : String × List (List (String × String) × ReportCell) :=
  ("component 2",
    [([("Network", "sdn")],
      buildCell ["Network"] [sampleImprovementEntry] "component 2" [("Network", "sdn")])])

/-- The cell of the one-entry report, used by the claim C5 witness. -/
def witnessCell : List (String × String) × ReportCell :=
  ([("Network", "sdn")],
    buildCell ["Network"] [sampleImprovementEntry] "component 2" [("Network", "sdn")])

end Sippy

open Sippy in
/-- Witness for the amended claim C5 at the one-entry report. -/
theorem aggregate_cell_reduction_witness :
    (witnessRow ∈ aggregateReport ["Network"] [sampleImprovementEntry]) ∧
    (witnessCell ∈ witnessRow.2) ∧
    ((bucketOf ["Network"] [sampleImprovementEntry] witnessRow.1 witnessCell.1 = [] →
      witnessCell.2.status = MissingBasisAndSample) ∧
    (bucketOf ["Network"] [sampleImprovementEntry] witnessRow.1 witnessCell.1 ≠ [] →
      witnessCell.2.status ∈
        (bucketOf ["Network"] [sampleImprovementEntry] witnessRow.1 witnessCell.1).map
          AggEntry.status ∧
      ∀ s ∈ (bucketOf ["Network"] [sampleImprovementEntry] witnessRow.1 witnessCell.1).map
          AggEntry.status, witnessCell.2.status ≤ s) ∧
    witnessCell.2.regressed.Perm
      ((bucketOf ["Network"] [sampleImprovementEntry] witnessRow.1 witnessCell.1).filter
        (fun e => decide (e.status ≤ SignificantTriagedRegression))) ∧
    List.Sorted regressedOrder witnessCell.2.regressed) :=
  ⟨by decide, by decide,
    aggregate_cell_reduction ["Network"] [sampleImprovementEntry] witnessRow witnessCell
      (by decide) (by decide)⟩

namespace Sippy

/-! ### Aggregator validation against the repository test

The entries below mirror test case "top page test with both improvement
and regression" of `TestGenerateComponentReport`: tests 1 and 3 regress
(extreme and significant) in the aws/amd64/ovn column of component 1, and
test 2 improves in the aws/amd64/sdn column of component 2; the two other
grid cells exist in neither side.  The statuses are the ones the expected
report records for each test. -/

def aggTest1 : AggEntry :=
  { component := "component 1", testName := "test 1", testID := "1",
    variants := [("Platform", "aws"), ("Architecture", "amd64"), ("Network", "ovn"),
      ("Upgrade", "upgrade-micro"), ("Topology", "ha"), ("FeatureSet", "techpreview"),
      ("Suite", "serial"), ("Installer", "ipi")],
    status := ExtremeRegression }

def aggTest3 : AggEntry :=
  { component := "component 1", testName := "test 3", testID := "3",
    variants := [("Platform", "aws"), ("Architecture", "amd64"), ("Network", "ovn"),
      ("Upgrade", "upgrade-micro")],
    status := SignificantRegression }

def aggTest2 : AggEntry :=
  { component := "component 2", testName := "test 2", testID := "2",
    variants := [("Platform", "aws"), ("Architecture", "amd64"), ("Network", "sdn"),
      ("Upgrade", "upgrade-micro"), ("Topology", "ha"), ("FeatureSet", "techpreview"),
      ("Suite", "serial"), ("Installer", "ipi")],
    status := SignificantImprovement }

/-- Model validation: on the entries of test case "top page test with both
improvement and regression", the aggregator produces the status grid of
the expected report — extreme regression with both regressed tests
retained (worst first) in component 1 x ovn, missing basis and sample in
the two untouched cells, and a significant improvement with no retained
regressed tests in component 2 x sdn. -/
theorem aggregate_matches_report_test :
    aggregateReport ["Platform", "Architecture", "Network"] [aggTest1, aggTest3, aggTest2] =
      [("component 1",
        [([("Architecture", "amd64"), ("Network", "ovn"), ("Platform", "aws")],
          { status := ExtremeRegression, regressed := [aggTest1, aggTest3] }),
         ([("Architecture", "amd64"), ("Network", "sdn"), ("Platform", "aws")],
          { status := MissingBasisAndSample, regressed := [] })]),
       ("component 2",
        [([("Architecture", "amd64"), ("Network", "ovn"), ("Platform", "aws")],
          { status := MissingBasisAndSample, regressed := [] }),
         ([("Architecture", "amd64"), ("Network", "sdn"), ("Platform", "aws")],
          { status := SignificantImprovement, regressed := [] })])] := by
  decide

end Sippy

namespace Sippy

/-! ### The prow job name normalizer

`utils.NormalizeProwJobName` is not part of the provided sources; only its
unit test is.  Modelled from the spec: the base release token and the
sample release token are each replaced (when configured, i.e. non-empty)
everywhere in the name by the placeholder `X.X`, and every frequency
marker `-f<digits>` is replaced by `-fXX`; the placeholders are the ones
the unit test expects.  Strings are modelled as character lists; the
scanning functions carry a step fuel of `length + 1`, which they never
exhaust because every step consumes at least one character. -/

/-- Go `strings.ReplaceAll` for a non-empty pattern: leftmost
non-overlapping matches, scanning left to right. -/
def replaceAllF : Nat → List Char → List Char → List Char → List Char
  | 0, _, _, s => s
  | _ + 1, _, _, [] => []
  | fuel + 1, p, r, c :: cs =>
    if !p.isEmpty && p.isPrefixOf (c :: cs) then
      r ++ replaceAllF fuel p r ((c :: cs).drop p.length)
    else c :: replaceAllF fuel p r cs

/-- `strings.ReplaceAll` with sufficient fuel. -/
def replaceAll (p r s : List Char) : List Char := replaceAllF (s.length + 1) p r s

/-- Whether the pattern occurs as a contiguous segment. -/
def containsSeg : List Char → List Char → Bool
  | p, [] => p.isEmpty
  | p, c :: cs => p.isPrefixOf (c :: cs) || containsSeg p cs

/-- Whether the list starts with a frequency marker `-f<digit>`. -/
def isFreqStart : List Char → Bool
  | c1 :: c2 :: c3 :: _ => c1 == '-' && c2 == 'f' && c3.isDigit
  | _ => false

/-- Whether a frequency marker occurs anywhere. -/
def hasFreqMark : List Char → Bool
  | [] => false
  | c :: rest => isFreqStart (c :: rest) || hasFreqMark rest

/-- Replace every frequency marker `-f<digits>` (maximal digit run) by
`-fXX`, scanning left to right: the regexp replacement of the source. -/
def freqNormF : Nat → List Char → List Char
  | 0, s => s
  | _ + 1, [] => []
  | fuel + 1, c :: rest =>
    if isFreqStart (c :: rest) then
      c :: 'f' :: 'X' :: 'X' :: freqNormF fuel ((rest.drop 1).dropWhile Char.isDigit)
    else c :: freqNormF fuel rest

/-- Frequency-marker replacement with sufficient fuel. -/
def freqNorm (s : List Char) : List Char := freqNormF (s.length + 1) s

/-- The release placeholder. -/
def xdotx : List Char := ['X', '.', 'X']

/-- `NormalizeProwJobName`: replace the configured base and sample release
tokens and the frequency markers by fixed placeholders. -/
def normalizeProwJobName (baseRelease sampleRelease name : List Char) : List Char :=
  freqNorm
    (if sampleRelease.isEmpty then
      (if baseRelease.isEmpty then name else replaceAll baseRelease xdotx name)
    else replaceAll sampleRelease xdotx
      (if baseRelease.isEmpty then name else replaceAll baseRelease xdotx name))

theorem replaceAllF_of_not_contains : ∀ (fuel : Nat) (p r s : List Char),
    containsSeg p s = false → replaceAllF fuel p r s = s
  | 0, _, _, _, _ => rfl
  | _ + 1, _, _, [], _ => rfl
  | fuel + 1, p, r, c :: cs, h => by
    simp only [containsSeg, Bool.or_eq_false_iff] at h
    simp only [replaceAllF]
    rw [if_neg]
    · rw [replaceAllF_of_not_contains fuel p r cs h.2]
    · simp [h.1]

theorem isFreqStart_false_of_head {c : Char} (l : List Char) (h : (c == '-') = false) :
    isFreqStart (c :: l) = false := by
  cases l with
  | nil => rfl
  | cons b t =>
    cases t with
    | nil => rfl
    | cons e u => simp [isFreqStart, h]

theorem isFreqStart_false_of_second {c b : Char} (l : List Char) (h : (b == 'f') = false) :
    isFreqStart (c :: b :: l) = false := by
  cases l with
  | nil => rfl
  | cons e u => simp [isFreqStart, h]

theorem freqNormF_nil : ∀ fuel : Nat, freqNormF fuel [] = []
  | 0 => rfl
  | _ + 1 => rfl

theorem freqNormF_head : ∀ (fuel : Nat) (c : Char) (rest : List Char),
    ∃ t, freqNormF fuel (c :: rest) = c :: t
  | 0, _, rest => ⟨rest, rfl⟩
  | fuel + 1, c, rest => by
    simp only [freqNormF]
    split
    · exact ⟨_, rfl⟩
    · exact ⟨_, rfl⟩

theorem freqNormF_of_noMark : ∀ (fuel : Nat) (s : List Char),
    hasFreqMark s = false → freqNormF fuel s = s
  | 0, _, _ => rfl
  | _ + 1, [], _ => rfl
  | fuel + 1, c :: rest, h => by
    simp only [hasFreqMark, Bool.or_eq_false_iff] at h
    simp only [freqNormF]
    rw [if_neg]
    · rw [freqNormF_of_noMark fuel rest h.2]
    · simp [h.1]

theorem hasFreqMark_freqNormF : ∀ (fuel : Nat) (s : List Char), s.length < fuel →
    hasFreqMark (freqNormF fuel s) = false
  | 0, _, h => by omega
  | _ + 1, [], _ => rfl
  | fuel + 1, c :: rest, h => by
    simp only [freqNormF]
    split
    next hstart =>
      have hlen : ((rest.drop 1).dropWhile Char.isDigit).length < fuel := by
        have h1 : ((rest.drop 1).dropWhile Char.isDigit).length ≤ (rest.drop 1).length :=
          (List.dropWhile_sublist Char.isDigit).length_le
        have h2 : (rest.drop 1).length ≤ rest.length := by cases rest <;> simp
        simp only [List.length_cons] at h
        omega
      have iht := hasFreqMark_freqNormF fuel _ hlen
      have hX1 : isFreqStart
          ('X' :: 'X' :: freqNormF fuel ((rest.drop 1).dropWhile Char.isDigit)) = false :=
        isFreqStart_false_of_head _ (by decide)
      have hX2 : isFreqStart
          ('X' :: freqNormF fuel ((rest.drop 1).dropWhile Char.isDigit)) = false :=
        isFreqStart_false_of_head _ (by decide)
      simp only [hasFreqMark, iht, hX1, hX2, Bool.or_false]
      simp [isFreqStart]
    next hstart =>
      have hstart' : isFreqStart (c :: rest) = false := by simpa using hstart
      have hlen : rest.length < fuel := by
        simp only [List.length_cons] at h
        omega
      have ihrest := hasFreqMark_freqNormF fuel rest hlen
      simp only [hasFreqMark, ihrest, Bool.or_false]
      rcases hcd : c == '-' with _ | _
      · exact isFreqStart_false_of_head _ hcd
      · have hc : c = '-' := by simpa using hcd
        subst hc
        cases rest with
        | nil =>
          rw [freqNormF_nil]
          rfl
        | cons d rest2 =>
          rcases hdf : d == 'f' with _ | _
          · obtain ⟨t, ht⟩ := freqNormF_head fuel d rest2
            rw [ht]
            exact isFreqStart_false_of_second _ hdf
          · have hd : d = 'f' := by simpa using hdf
            subst hd
            cases rest2 with
            | nil =>
              rw [freqNormF_of_noMark fuel ['f'] (by decide)]
              rfl
            | cons e rest3 =>
              have he : e.isDigit = false := by
                simp only [isFreqStart] at hstart'
                simpa using hstart'
              have hifs : isFreqStart ('f' :: e :: rest3) = false :=
                isFreqStart_false_of_head _ (by decide)
              cases fuel with
              | zero =>
                simp only [freqNormF]
                simp [isFreqStart, he]
              | succ fuel2 =>
                simp only [freqNormF]
                rw [if_neg (by simp [hifs])]
                obtain ⟨t, ht⟩ := freqNormF_head fuel2 e rest3
                rw [ht]
                simp [isFreqStart, he]

theorem hasFreqMark_freqNorm (s : List Char) : hasFreqMark (freqNorm s) = false :=
  hasFreqMark_freqNormF _ _ (Nat.lt_succ_self _)

theorem freqNorm_of_noMark {s : List Char} (h : hasFreqMark s = false) : freqNorm s = s :=
  freqNormF_of_noMark _ _ h

end Sippy

namespace Sippy

/-- Model validation: the three rows of
`Test_componentReportGenerator_normalizeProwJobName` — base release
removed, sample release removed, frequency marker removed. -/
theorem normalize_matches_test_rows :
    normalizeProwJobName "4.16".data []
      "periodic-ci-openshift-release-master-ci-4.16-e2e-azure-ovn-upgrade".data =
      "periodic-ci-openshift-release-master-ci-X.X-e2e-azure-ovn-upgrade".data ∧
    normalizeProwJobName [] "4.16".data
      "periodic-ci-openshift-release-master-ci-4.16-e2e-azure-ovn-upgrade".data =
      "periodic-ci-openshift-release-master-ci-X.X-e2e-azure-ovn-upgrade".data ∧
    normalizeProwJobName [] []
      "periodic-ci-openshift-release-master-ci-test-job-f27".data =
      "periodic-ci-openshift-release-master-ci-test-job-fXX".data := by
  refine ⟨by decide, by decide, by decide⟩

end Sippy

open Sippy in
/-- Counterexample to claim C7: with base release token `X` (and no sample
release) the job name `X` normalizes to `X.X`, and normalizing again gives
`X.X.X.X` — the release replacement re-matches inside its own placeholder,
so normalization is not idempotent for every job name and request
options. -/
theorem normalize_idempotent_C7_counterexample :
    normalizeProwJobName ['X'] [] ['X'] = ['X', '.', 'X'] ∧
    normalizeProwJobName ['X'] [] (normalizeProwJobName ['X'] [] ['X']) =
      ['X', '.', 'X', '.', 'X', '.', 'X'] ∧
    normalizeProwJobName ['X'] [] (normalizeProwJobName ['X'] [] ['X']) ≠
      normalizeProwJobName ['X'] [] ['X'] := by
  refine ⟨by decide, by decide, by decide⟩

open Sippy in
/-- Claim C7 amended: normalization is idempotent on every already
normalized name in which neither configured release token occurs — in
particular for every real job name and version-like release token, whose
digits and dots cannot appear in the `X.X`/`-fXX` placeholders; a release
token that overlaps its own placeholder (such as the literal `X`) breaks
idempotence, as the counterexample shows. -/
theorem normalize_idempotent (baseRelease sampleRelease name : List Char)
    (hb : baseRelease = [] ∨
      containsSeg baseRelease (normalizeProwJobName baseRelease sampleRelease name) = false)
    (hs : sampleRelease = [] ∨
      containsSeg sampleRelease (normalizeProwJobName baseRelease sampleRelease name) = false) :
    normalizeProwJobName baseRelease sampleRelease
      (normalizeProwJobName baseRelease sampleRelease name) =
      normalizeProwJobName baseRelease sampleRelease name := by
  have hmark : hasFreqMark (normalizeProwJobName baseRelease sampleRelease name) = false :=
    hasFreqMark_freqNorm _
  have hbase : (if baseRelease.isEmpty then normalizeProwJobName baseRelease sampleRelease name
      else replaceAll baseRelease xdotx (normalizeProwJobName baseRelease sampleRelease name)) =
      normalizeProwJobName baseRelease sampleRelease name := by
    rcases hb with hb | hb
    · rw [hb]
      rfl
    · rcases hbe : baseRelease.isEmpty with _ | _
      · rw [if_neg (by simp)]
        exact replaceAllF_of_not_contains _ _ _ _ hb
      · simp
  have hall : (if sampleRelease.isEmpty then
      (if baseRelease.isEmpty then normalizeProwJobName baseRelease sampleRelease name
       else replaceAll baseRelease xdotx (normalizeProwJobName baseRelease sampleRelease name))
    else replaceAll sampleRelease xdotx
      (if baseRelease.isEmpty then normalizeProwJobName baseRelease sampleRelease name
       else replaceAll baseRelease xdotx (normalizeProwJobName baseRelease sampleRelease name))) =
      normalizeProwJobName baseRelease sampleRelease name := by
    rw [hbase]
    rcases hse : sampleRelease.isEmpty with _ | _
    · rw [if_neg (by simp)]
      rcases hs with hs | hs
      · subst hs
        simp at hse
      · exact replaceAllF_of_not_contains _ _ _ _ hs
    · simp
  show freqNorm
      (if sampleRelease.isEmpty then
        (if baseRelease.isEmpty then normalizeProwJobName baseRelease sampleRelease name
         else replaceAll baseRelease xdotx (normalizeProwJobName baseRelease sampleRelease name))
      else replaceAll sampleRelease xdotx
        (if baseRelease.isEmpty then normalizeProwJobName baseRelease sampleRelease name
         else replaceAll baseRelease xdotx
           (normalizeProwJobName baseRelease sampleRelease name))) =
      normalizeProwJobName baseRelease sampleRelease name
  rw [hall]
  exact freqNorm_of_noMark hmark

open Sippy in
/-- Witness for the amended claim C7 at the repository test inputs: base
release 4.16, the azure job name of the unit test; the token does not
occur in the normalized name, and normalization is idempotent there. -/
theorem normalize_idempotent_witness :
    ("4.16".data = ([] : List Char) ∨
      containsSeg "4.16".data (normalizeProwJobName "4.16".data []
        "periodic-ci-openshift-release-master-ci-4.16-e2e-azure-ovn-upgrade".data) = false) ∧
    (([] : List Char) = [] ∨
      containsSeg [] (normalizeProwJobName "4.16".data []
        "periodic-ci-openshift-release-master-ci-4.16-e2e-azure-ovn-upgrade".data) = false) ∧
    normalizeProwJobName "4.16".data []
      (normalizeProwJobName "4.16".data []
        "periodic-ci-openshift-release-master-ci-4.16-e2e-azure-ovn-upgrade".data) =
      normalizeProwJobName "4.16".data []
        "periodic-ci-openshift-release-master-ci-4.16-e2e-azure-ovn-upgrade".data :=
  ⟨Or.inr (by decide), Or.inl rfl,
    normalize_idempotent "4.16".data []
      "periodic-ci-openshift-release-master-ci-4.16-e2e-azure-ovn-upgrade".data
      (Or.inr (by decide)) (Or.inl rfl)⟩
